import Mathlib

/-
Verification development for the sailfish finite-volume hydrodynamics code.

The Python/C sources are shallowly embedded over exact rational arithmetic:
machine doubles become `ℚ`, numpy arrays become functions `ℕ → (Fin 3 → ℚ)`
(cell index to per-cell state vector), and the in-place kernel writes become
pure functions that return the updated buffer.  The device functions supplied
by the repository module `lib_euler` (`prim_to_cons`, `cons_to_prim`,
`riemann_hlle`) and the native SRHD kernels are not under `src/`, so they are
kept abstract: every theorem below is proved for an arbitrary choice of those
functions, which is stronger than any single instantiation.

The kernel loop macros come from the repository module `new_kernels`, which is
also not under `src/`.  Modelled from the spec: `FOR_RANGE_1D(a, b)` iterates
`i` over the half-open range `[a, b)`, `FOR_RANGE_2D` iterates the product of
two half-open ranges, and `FOR_EACH_1D(n)` iterates `[0, n)` (spec sections
3, 4.5, 4.6: faces `[1, ni-2)`, interior cells `[2, ni-2)`).
-/

namespace Sailfish

/-- Per-cell state vector for the 1d Euler solvers (`NCONS = 3`). -/
abbrev Vec3 := Fin 3 → ℚ

/-- Per-cell state vector for the 2d Euler solver (`NCONS = 4`). -/
abbrev Vec4 := Fin 4 → ℚ

/-- A 2d primitive/conserved array, indexed by a pair of zone indices. -/
abbrev Grid2 := ℕ × ℕ → Vec4

/-- Embeds the C macro `sign(x) = copysign(1.0, x)` over exact rationals
(`sign 0 = 1`, matching `copysign` on positive zero). -/
def sign (x : ℚ) : ℚ := if x < 0 then -1 else 1

/-- Embeds the C macro `min3(a, b, c) = min2(a, min2(b, c))`. -/
def min3 (a b c : ℚ) : ℚ := min a (min b c)

/-- Embeds the device function `plm_minmod` from `src/ideas/sailfish0.6.py`:
`a = (yc - yl)*plm_theta`, `b = (yr - yl)*0.5`, `c = (yr - yc)*plm_theta`,
returning `0.25 * |sign a + sign b| * (sign a + sign c) * minabs(a, b, c)`. -/
def plm_minmod (yl yc yr plm_theta : ℚ) : ℚ :=
  let a := (yc - yl) * plm_theta
  let b := (yr - yl) * 0.5
  let c := (yr - yc) * plm_theta
  0.25 * |sign a + sign b| * (sign a + sign c) * min3 |a| |b| |c|

/-- Embeds `numpy.linspace(a, b, n)`: `n` evenly spaced samples with both
endpoints included, sample `i` being `a + (b - a) * i / (n - 1)`. -/
def linspace (a b : ℚ) (n : ℕ) : List ℚ :=
  (List.range n).map (fun (i : ℕ) => a + (b - a) * (i : ℚ) / ((n : ℚ) - 1))

/-- Embeds `cell_centers_1d` from `src/ideas/sailfish0.6.py`:
`xv = linspace(0.0, 1.0, ni); xc = 0.5 * (xv[1:] + xv[:-1])`. -/
def cell_centers_1d (ni : ℕ) : List ℚ :=
  let xv := linspace 0 1 ni
  List.zipWith (fun u v => 0.5 * (u + v)) (xv.drop 1) xv

/-- The `lib_euler` device functions used by the 1d solver classes
(`device_funcs = [prim_to_cons, cons_to_prim, riemann_hlle]`).  They live in
the repository module `lib_euler`, outside `src/`, so they are abstract here;
`hlle` is `riemann_hlle` specialized to axis 1 as the 1d kernels call it. -/
structure EulerOps where
  p2c : Vec3 → Vec3
  c2p : Vec3 → Vec3
  hlle : Vec3 → Vec3 → Vec3

/-- Embeds the face reconstruction of `FluxPerFaceSolver.compute_godunov_fluxes`
at the face between cells `i` and `i + 1`: under `PLM == 0` the states are
`(pc, pr)`; under `PLM == 1` they are `pc + 0.5*minmod(pl, pc, pr)` and
`pr - 0.5*minmod(pc, pr, ps)`. -/
def reconFace (plm : Bool) (theta : ℚ) (p : ℕ → Vec3) (i : ℕ) : Vec3 × Vec3 :=
  if plm then
    (fun q => p i q + 0.5 * plm_minmod (p (i - 1) q) (p i q) (p (i + 1) q) theta,
     fun q => p (i + 1) q - 0.5 * plm_minmod (p i q) (p (i + 1) q) (p (i + 2) q) theta)
  else
    (p i, p (i + 1))

/-- Embeds `KERNEL compute_godunov_fluxes` of `FluxPerFaceSolver`:
`FOR_RANGE_1D(1, ni - 2)` writes `f[i + 1] = riemann_hlle(pm, pp, 1)`;
all other slots of `f` keep their previous contents.  The face slot `j = i + 1`
is written exactly when `2 ≤ j` and `j + 1 < ni`. -/
def computeGodunovFluxes (E : EulerOps) (plm : Bool) (theta : ℚ) (ni : ℕ)
    (p f : ℕ → Vec3) : ℕ → Vec3 :=
  fun j =>
    if 2 ≤ j ∧ j + 1 < ni then
      E.hlle (reconFace plm theta p (j - 1)).1 (reconFace plm theta p (j - 1)).2
    else f j

/-- Embeds `KERNEL update_prim` of `FluxPerFaceSolver`: `FOR_RANGE_1D(2, ni - 2)`
converts `p[i]` to conserved, applies `uc -= (f[i+1] - f[i]) * dt / dx`, under
`RUNGE_KUTTA == 1` applies `uc *= (1 - rk); uc += rk * urk[i]`, and converts
back in place; other cells are untouched. -/
def fpfUpdate (E : EulerOps) (rkOn : Bool) (ni : ℕ) (p f urk : ℕ → Vec3)
    (dt dx rk : ℚ) : ℕ → Vec3 :=
  fun i =>
    if 2 ≤ i ∧ i + 2 < ni then
      E.c2p (fun q =>
        let u := E.p2c (p i) q - (f (i + 1) q - f i q) * dt / dx
        if rkOn then u * (1 - rk) + rk * urk i q else u)
    else p i

/-- Embeds `KERNEL prim_to_cons_array` of both 1d solver classes:
`FOR_RANGE_1D(1, ni - 1)` writes `u[i] = prim_to_cons(p[i])`; other slots of
the destination buffer keep their previous (uninitialized) contents. -/
def primToConsArray (E : EulerOps) (ni : ℕ) (p u : ℕ → Vec3) : ℕ → Vec3 :=
  fun i => if 1 ≤ i ∧ i + 1 < ni then E.p2c (p i) else u i

/-- Embeds the reconstruction block of `KERNEL update_prim` of
`FluxPerZoneSolver`, returning `(plp, pcm, pcp, prm)` for cell `i`:
under `PLM == 0` these are `(pl, pc, pc, pr)`; under `PLM == 1` they are the
slope-limited states built from `minmod` of the five-cell stencil. -/
def zoneRecon (plm : Bool) (theta : ℚ) (p : ℕ → Vec3) (i : ℕ) :
    Vec3 × Vec3 × Vec3 × Vec3 :=
  if plm then
    (fun q => p (i - 1) q + 0.5 * plm_minmod (p (i - 2) q) (p (i - 1) q) (p i q) theta,
     fun q => p i q - 0.5 * plm_minmod (p (i - 1) q) (p i q) (p (i + 1) q) theta,
     fun q => p i q + 0.5 * plm_minmod (p (i - 1) q) (p i q) (p (i + 1) q) theta,
     fun q => p (i + 1) q - 0.5 * plm_minmod (p i q) (p (i + 1) q) (p (i + 2) q) theta)
  else
    (p (i - 1), p i, p i, p (i + 1))

/-- The conserved state of cell `i` after the flux-divergence update of
`FluxPerZoneSolver.update_prim` (before any Runge-Kutta blend):
`fm = riemann_hlle(plp, pcm, 1)`, `fp = riemann_hlle(pcp, prm, 1)`,
`uc = prim_to_cons(pc)` then `uc -= (fp - fm) * dt / dx`. -/
def zoneFluxDiv (E : EulerOps) (plm : Bool) (theta dt dx : ℚ) (p : ℕ → Vec3)
    (i : ℕ) : Vec3 :=
  let r := zoneRecon plm theta p i
  let fm := E.hlle r.1 r.2.1
  let fp := E.hlle r.2.2.1 r.2.2.2
  fun q => E.p2c (p i) q - (fp q - fm q) * dt / dx

/-- Embeds `KERNEL update_prim` of `FluxPerZoneSolver`: `FOR_RANGE_1D(2, ni - 2)`
computes both face fluxes from the read buffer `prd`, applies the
flux-divergence update, under `RUNGE_KUTTA == 1` applies
`uc *= (1 - rk); uc += rk * urk[i]`, and writes `cons_to_prim(uc)` into the
write buffer `pwr`; other slots of `pwr` keep their previous contents. -/
def fpzUpdate (E : EulerOps) (rkOn plm : Bool) (theta : ℚ) (ni : ℕ)
    (prd pwr urk : ℕ → Vec3) (dt dx rk : ℚ) : ℕ → Vec3 :=
  fun i =>
    if 2 ≤ i ∧ i + 2 < ni then
      E.c2p (fun q =>
        let u := zoneFluxDiv E plm theta dt dx prd i q
        if rkOn then u * (1 - rk) + rk * urk i q else u)
    else pwr i

/-- Embeds the `time_integration` dispatch at the top of `update_prim` /
`update_prim2d`: `fwd` leaves `rks` unbound (`none`), `rk1`, `rk2`, `rk3`
select their stage coefficient lists, anything else raises `ValueError`. -/
def rksOf (ti : String) : Except String (Option (List ℚ)) :=
  if ti = "fwd" then .ok none
  else if ti = "rk1" then .ok (some [0])
  else if ti = "rk2" then .ok (some [0, 1/2])
  else if ti = "rk3" then .ok (some [0, 3/4, 1/3])
  else .error ("time_integration must be [fwd|r1k|rk2|rk3], got " ++ ti)

/-- Embeds `SolverClass.get`, which the three solver registries inherit: maps
`(time_integration, reconstruction)` to the `(runge_kutta, plm)` flags of the
specialized solver instance.  A `reconstruction` outside `pcm`/`plm` raises
`ValueError`; a valid `reconstruction` with an unknown `time_integration`
falls through and returns `None` (Python then fails on attribute access,
modelled downstream as an error). -/
def solverGet (ti rec : String) : Except String (Option (Bool × Bool)) :=
  if rec = "pcm" then
    .ok (if ti = "fwd" then some (false, false)
         else if ti = "rk1" ∨ ti = "rk2" ∨ ti = "rk3" then some (true, false)
         else none)
  else if rec = "plm" then
    .ok (if ti = "fwd" then some (false, true)
         else if ti = "rk1" ∨ ti = "rk2" ∨ ti = "rk3" then some (true, true)
         else none)
  else .error ("no solver config " ++ ti ++ "/" ++ rec)

/-- Embeds the driver `update_prim` from `src/ideas/sailfish0.6.py`.  The
buffers `f0` and `urk0` model the uninitialized `empty_like` allocations for
the face fluxes and the frozen conserved state.  `per_face` updates the
primitive buffer in place each stage after recomputing fluxes; `per_zone`
alternates the read/write buffers `prd`/`pwr` (starting from `prd = p`,
`pwr = p.copy()`) and returns `prd` after the final swap. -/
def updatePrim (E : EulerOps) (fluxing rec ti : String) (theta dt dx : ℚ)
    (p : ℕ → Vec3) (ni : ℕ) (f0 urk0 : ℕ → Vec3) : Except String (ℕ → Vec3) :=
  match rksOf ti with
  | .error e => .error e
  | .ok rksOpt =>
    if fluxing = "per_face" then
      match solverGet ti rec with
      | .error e => .error e
      | .ok none => .error "AttributeError"
      | .ok (some (rkOn, plm)) =>
        match rksOpt with
        | none =>
          .ok (fpfUpdate E rkOn ni p (computeGodunovFluxes E plm theta ni p f0)
                 urk0 dt dx 0)
        | some rks =>
          let urk := primToConsArray E ni p urk0
          .ok ((rks.foldl (fun pf rk =>
                 let f := computeGodunovFluxes E plm theta ni pf.1 pf.2
                 (fpfUpdate E rkOn ni pf.1 f urk dt dx rk, f)) (p, f0)).1)
    else if fluxing = "per_zone" then
      match solverGet ti rec with
      | .error e => .error e
      | .ok none => .error "AttributeError"
      | .ok (some (rkOn, plm)) =>
        match rksOpt with
        | none =>
          .ok (fpzUpdate E rkOn plm theta ni p p urk0 dt dx 0)
        | some rks =>
          let urk := primToConsArray E ni p urk0
          .ok ((rks.foldl (fun bufs rk =>
                 (fpzUpdate E rkOn plm theta ni bufs.1 bufs.2 urk dt dx rk,
                  bufs.1)) (p, p)).1)
    else .error ("unknown fluxing " ++ fluxing)

/-- Spec-side description of one Runge-Kutta stage of the per-zone solver
(spec section 4.7): after the flux-divergence update the cell's conserved
state is blended as `u_c <- (1 - a) * u_c + a * U_rk[c]` where `a` is the
stage coefficient; only interior cells `[2, ni - 2)` are written. -/
def specZoneStage (E : EulerOps) (plm : Bool) (theta : ℚ) (ni : ℕ)
    (urk prd pwr : ℕ → Vec3) (dt dx a : ℚ) : ℕ → Vec3 :=
  fun i =>
    if 2 ≤ i ∧ i + 2 < ni then
      E.c2p (fun q => (1 - a) * zoneFluxDiv E plm theta dt dx prd i q + a * urk i q)
    else pwr i

/-- Spec-side description of the per-zone Runge-Kutta driver (spec section
4.7): at the start of the step `U_rk = prim_to_cons(P)` is frozen, then the
stages run in order with their blend coefficients, swapping the read/write
buffers after each stage. -/
def specZoneRun (E : EulerOps) (plm : Bool) (theta : ℚ) (ni : ℕ)
    (stages : List ℚ) (p : ℕ → Vec3) (dt dx : ℚ) : ℕ → Vec3 :=
  let urk := fun i => E.p2c (p i)
  (stages.foldl (fun bufs a =>
    (specZoneStage E plm theta ni urk bufs.1 bufs.2 dt dx a, bufs.1)) (p, p)).1

/-- Spec-side description of one Runge-Kutta stage of the per-face solver
(spec sections 4.5 and 4.7): recompute the face fluxes from the current
primitive state, then update interior cells in place, blending the conserved
state as `(1 - a) * u_c + a * U_rk[c]` after the flux-divergence update.
Returns the updated primitive buffer and the flux buffer. -/
def specFaceStage (E : EulerOps) (plm : Bool) (theta : ℚ) (ni : ℕ)
    (urk p f : ℕ → Vec3) (dt dx a : ℚ) : (ℕ → Vec3) × (ℕ → Vec3) :=
  let fnew := computeGodunovFluxes E plm theta ni p f
  (fun i =>
    if 2 ≤ i ∧ i + 2 < ni then
      E.c2p (fun q =>
        (1 - a) * (E.p2c (p i) q - (fnew (i + 1) q - fnew i q) * dt / dx) +
          a * urk i q)
    else p i,
   fnew)

/-- Spec-side description of the per-face Runge-Kutta driver (spec section
4.7): freeze `U_rk = prim_to_cons(P)`, then run the stages in order with
their blend coefficients, updating the primitive buffer in place. -/
def specFaceRun (E : EulerOps) (plm : Bool) (theta : ℚ) (ni : ℕ)
    (stages : List ℚ) (p f0 : ℕ → Vec3) (dt dx : ℚ) : ℕ → Vec3 :=
  let urk := fun i => E.p2c (p i)
  (stages.foldl (fun pf a =>
    specFaceStage E plm theta ni urk pf.1 pf.2 dt dx a) (p, f0)).1

/-- The flux the per-face solver stores at the face between cells `i` and
`i + 1`: HLLE applied to the reconstructed left/right face states. -/
def faceFlux (E : EulerOps) (plm : Bool) (theta : ℚ) (p : ℕ → Vec3) (i : ℕ) : Vec3 :=
  E.hlle (reconFace plm theta p i).1 (reconFace plm theta p i).2

/-- The value the per-face solver stores in place at interior cell `i`:
convert `p_c` to conserved, subtract `(F[i+1] - F[i]) * dt / dx`, optionally
blend `(1 - rk) * u_c + rk * U_rk[c]`, and convert back. -/
def interiorUpdate (E : EulerOps) (rkOn : Bool) (p f urk : ℕ → Vec3)
    (dt dx rk : ℚ) (i : ℕ) : Vec3 :=
  E.c2p (fun q =>
    let u := E.p2c (p i) q - (f (i + 1) q - f i q) * dt / dx
    if rkOn then (1 - rk) * u + rk * urk i q else u)

/-- The `lib_euler` device functions for the 2d solver (`NCONS = 4`); the
axis argument of `riemann_hlle` is kept (the 2d kernel calls it with axes 1
and 2). -/
structure EulerOps2 where
  p2c : Vec4 → Vec4
  c2p : Vec4 → Vec4
  hlle : ℕ → Vec4 → Vec4 → Vec4

/-- Embeds the x-axis reconstruction block of `FluxPerZoneSolver2D.update_prim`,
returning `(pilp, picm, picp, pirm)` for cell `(i, j)`. -/
def zoneRecon2X (plm : Bool) (theta : ℚ) (p : Grid2) (i j : ℕ) :
    Vec4 × Vec4 × Vec4 × Vec4 :=
  if plm then
    (fun q => p (i - 1, j) q + 0.5 * plm_minmod (p (i - 2, j) q) (p (i - 1, j) q) (p (i, j) q) theta,
     fun q => p (i, j) q - 0.5 * plm_minmod (p (i - 1, j) q) (p (i, j) q) (p (i + 1, j) q) theta,
     fun q => p (i, j) q + 0.5 * plm_minmod (p (i - 1, j) q) (p (i, j) q) (p (i + 1, j) q) theta,
     fun q => p (i + 1, j) q - 0.5 * plm_minmod (p (i, j) q) (p (i + 1, j) q) (p (i + 2, j) q) theta)
  else
    (p (i - 1, j), p (i, j), p (i, j), p (i + 1, j))

/-- Embeds the y-axis reconstruction block of `FluxPerZoneSolver2D.update_prim`,
returning `(pjlp, pjcm, pjcp, pjrm)` for cell `(i, j)`. -/
def zoneRecon2Y (plm : Bool) (theta : ℚ) (p : Grid2) (i j : ℕ) :
    Vec4 × Vec4 × Vec4 × Vec4 :=
  if plm then
    (fun q => p (i, j - 1) q + 0.5 * plm_minmod (p (i, j - 2) q) (p (i, j - 1) q) (p (i, j) q) theta,
     fun q => p (i, j) q - 0.5 * plm_minmod (p (i, j - 1) q) (p (i, j) q) (p (i, j + 1) q) theta,
     fun q => p (i, j) q + 0.5 * plm_minmod (p (i, j - 1) q) (p (i, j) q) (p (i, j + 1) q) theta,
     fun q => p (i, j + 1) q - 0.5 * plm_minmod (p (i, j) q) (p (i, j + 1) q) (p (i, j + 2) q) theta)
  else
    (p (i, j - 1), p (i, j), p (i, j), p (i, j + 1))

/-- Embeds `KERNEL update_prim` of `FluxPerZoneSolver2D`:
`FOR_RANGE_2D(2, ni - 2, 2, nj - 2)` computes all four face fluxes of cell
`(i, j)` from the read buffer, applies
`ucc -= (fp - fm + gp - gm) * dt / dx`, under `RUNGE_KUTTA == 1` applies the
blend against `urk`, and writes `cons_to_prim(ucc)` into the write buffer. -/
def fpz2dUpdate (E : EulerOps2) (rkOn plm : Bool) (theta : ℚ) (ni nj : ℕ)
    (prd pwr urk : Grid2) (dt dx rk : ℚ) : Grid2 :=
  fun ij =>
    if 2 ≤ ij.1 ∧ ij.1 + 2 < ni ∧ 2 ≤ ij.2 ∧ ij.2 + 2 < nj then
      let rx := zoneRecon2X plm theta prd ij.1 ij.2
      let ry := zoneRecon2Y plm theta prd ij.1 ij.2
      let fm := E.hlle 1 rx.1 rx.2.1
      let fp := E.hlle 1 rx.2.2.1 rx.2.2.2
      let gm := E.hlle 2 ry.1 ry.2.1
      let gp := E.hlle 2 ry.2.2.1 ry.2.2.2
      E.c2p (fun q =>
        let u := E.p2c (prd ij) q - (fp q - fm q + gp q - gm q) * dt / dx
        if rkOn then u * (1 - rk) + rk * urk ij q else u)
    else pwr ij

/-- Embeds `KERNEL prim_to_cons_array` of `FluxPerZoneSolver2D`:
`FOR_EACH_1D` over the flattened array converts every allocated cell. -/
def primToConsArray2 (E : EulerOps2) (ni nj : ℕ) (p u : Grid2) : Grid2 :=
  fun ij => if ij.1 < ni ∧ ij.2 < nj then E.p2c (p ij) else u ij

/-- Embeds the driver `update_prim2d` from `src/ideas/sailfish0.6.py`:
validates `time_integration` first, then rejects any `fluxing` other than
`per_zone`, then runs the same buffer-alternating stage loop as the 1d
per-zone driver. -/
def updatePrim2d (E : EulerOps2) (fluxing rec ti : String) (theta dt dx : ℚ)
    (p : Grid2) (ni nj : ℕ) (urk0 : Grid2) : Except String Grid2 :=
  match rksOf ti with
  | .error e => .error e
  | .ok rksOpt =>
    if fluxing = "per_zone" then
      match solverGet ti rec with
      | .error e => .error e
      | .ok none => .error "AttributeError"
      | .ok (some (rkOn, plm)) =>
        match rksOpt with
        | none =>
          .ok (fpz2dUpdate E rkOn plm theta ni nj p p urk0 dt dx 0)
        | some rks =>
          let urk := primToConsArray2 E ni nj p urk0
          .ok ((rks.foldl (fun bufs rk =>
                 (fpz2dUpdate E rkOn plm theta ni nj bufs.1 bufs.2 urk dt dx rk,
                  bufs.1)) (p, p)).1)
    else .error "only fluxing=per_zone supported in 2d"

/-- Embeds the SRHD patch state from
`src/py_sailfish/sailfish/solvers/srhd_1d.py` (class `Patch`): the per-patch
buffers over an abstract array type `β`, the face coordinates, the frozen and
current times, and the linear scale-factor coefficients. -/
structure SrhdPatch (β : Type) where
  num_zones : ℕ
  faces : List ℚ
  coordinates : ℕ
  scale_factor_initial : ℚ
  scale_factor_derivative : ℚ
  time : ℚ
  time0 : ℚ
  primitive1 : β
  conserved0 : β
  conserved1 : β
  conserved2 : β

/-- Embeds `Patch.scale_factor`:
`scale_factor_initial + scale_factor_derivative * time`. -/
def SrhdPatch.scale_factor {β : Type} (p : SrhdPatch β) : ℚ :=
  p.scale_factor_initial + p.scale_factor_derivative * p.time

/-- Embeds `Patch.advance_rk`.  The native entry points
`srhd_1d_conserved_to_primitive` (as `c2pK`) and `srhd_1d_advance_rk` (as
`advK`) are not under `src/`, so they are abstract parameters with the call
signatures of the Python adapter.  The method first recomputes `primitive1`
from `conserved1` using the scale factor at the current time, runs the stage
kernel writing the new conserved state into `conserved2`, sets
`time = time0 * rk_param + (time0 + dt) * (1 - rk_param)`, and finally swaps
`conserved1` and `conserved2`. -/
def SrhdPatch.advance_rk {β : Type}
    (c2pK : ℕ → List ℚ → β → ℚ → ℕ → β)
    (advK : ℕ → List ℚ → β → β → β → ℚ → ℚ → ℚ → ℚ → ℚ → ℕ → β)
    (p : SrhdPatch β) (rk_param dt : ℚ) : SrhdPatch β :=
  let prim := c2pK p.num_zones p.faces p.conserved1 p.scale_factor p.coordinates
  let u2 := advK p.num_zones p.faces p.conserved0 prim p.conserved1
              p.scale_factor_initial p.scale_factor_derivative p.time rk_param dt
              p.coordinates
  { p with
      primitive1 := prim
      time := p.time0 * rk_param + (p.time0 + dt) * (1 - rk_param)
      conserved1 := u2
      conserved2 := p.conserved1 }

/-- Embeds `Solver.set_bc` from `src/py_sailfish/sailfish/solvers/srhd_1d.py`
with `ng = 2` guard cells.  Arrays are functions with explicit lengths `nl`
(left neighbor) and `n0` (this patch).  The two Python slice assignments run
in order, so under `outflow` the right-guard fill reads the array state after
the left-guard fill (`b1`).  The right-guard branch is checked first because
the second assignment overwrites the first wherever they overlap. -/
def setBC {β : Type} (bc : String) (numPatches : ℕ) (al a0 ar : ℕ → β)
    (nl n0 index : ℕ) : Except String (ℕ → β) :=
  if bc = "periodic" then
    .ok (fun i =>
      if n0 - 2 ≤ i ∧ i < n0 then ar (2 + (i - (n0 - 2)))
      else if i < 2 then al (nl - 4 + i)
      else a0 i)
  else if bc = "outflow" then
    let b1 : ℕ → β := fun i =>
      if i < 2 then (if index = 0 then a0 (2 + i) else al (nl - 4 + i))
      else a0 i
    .ok (fun i =>
      if n0 - 2 ≤ i ∧ i < n0 then
        (if index = numPatches - 1 then b1 (n0 - 4 + (i - (n0 - 2)))
         else ar (2 + (i - (n0 - 2))))
      else b1 i)
  else .error "boundary condition must be periodic | outflow"

/-- Embeds the left-neighbor selection of `Solver.advance_rk`:
`(i + num_patches - 1) % num_patches`. -/
def leftNeighbor (numPatches i : ℕ) : ℕ := (i + numPatches - 1) % numPatches

/-- Embeds the right-neighbor selection of `Solver.advance_rk`:
`(i + num_patches + 1) % num_patches`. -/
def rightNeighbor (numPatches i : ℕ) : ℕ := (i + numPatches + 1) % numPatches

/-- The guard-exchange contract of `set_bc`, as the spec states it: under
`periodic` the left guard comes from the left neighbor's interior right edge
and the right guard from the right neighbor's interior left edge; under
`outflow` the outermost patches fill the outward guard from their own
interior edge (zero gradient) and all other guards are copied from neighbors;
interior cells are untouched; any other boundary condition is an error. -/
def SetBCProp {β : Type} (numPatches : ℕ) (al a0 ar : ℕ → β)
    (nl n0 index : ℕ) (bc : String) : Prop :=
  (∃ g, setBC "periodic" numPatches al a0 ar nl n0 index = Except.ok g ∧
     g 0 = al (nl - 4) ∧ g 1 = al (nl - 3) ∧
     g (n0 - 2) = ar 2 ∧ g (n0 - 1) = ar 3 ∧
     ∀ i, 2 ≤ i → i + 2 < n0 → g i = a0 i) ∧
  (∃ g, setBC "outflow" numPatches al a0 ar nl n0 index = Except.ok g ∧
     g 0 = (if index = 0 then a0 2 else al (nl - 4)) ∧
     g 1 = (if index = 0 then a0 3 else al (nl - 3)) ∧
     g (n0 - 2) = (if index = numPatches - 1 then a0 (n0 - 4) else ar 2) ∧
     g (n0 - 1) = (if index = numPatches - 1 then a0 (n0 - 3) else ar 3) ∧
     ∀ i, 2 ≤ i → i + 2 < n0 → g i = a0 i) ∧
  (∃ e, setBC bc numPatches al a0 ar nl n0 index = Except.error e)

/-- A concrete instantiation of the abstract `lib_euler` device functions,
used only to witness theorems at explicit inputs. -/
def opsW : EulerOps :=
  { p2c := id, c2p := id, hlle := fun a b q => a q + b q }

/-- A concrete instantiation of the 2d device functions, used only to witness
theorems at explicit inputs. -/
def opsW2 : EulerOps2 :=
  { p2c := id, c2p := id, hlle := fun _ a b q => a q + b q }

/-- A concrete primitive array used only to witness theorems. -/
def pW : ℕ → Vec3 := fun i q => (i : ℚ) + (q : ℚ) + 1

/-- A concrete 2d primitive array used only to witness theorems. -/
def pW2 : Grid2 := fun ij q => (ij.1 : ℚ) + (ij.2 : ℚ) + (q : ℚ) + 1

theorem sign_neg_of_ne {x : ℚ} (h : x ≠ 0) : sign (-x) = - sign x := by
  unfold sign
  rcases lt_trichotomy x 0 with hx | hx | hx
  · rw [if_pos hx, if_neg (by linarith : ¬ -x < 0)]
    norm_num
  · exact absurd hx h
  · rw [if_neg (by linarith : ¬ x < 0), if_pos (by linarith : -x < 0)]

theorem min3_abs_left_zero (b c : ℚ) : min3 0 |b| |c| = 0 := by
  unfold min3
  exact min_eq_left (le_min (abs_nonneg b) (abs_nonneg c))

theorem min3_abs_mid_zero (a c : ℚ) : min3 |a| 0 |c| = 0 := by
  unfold min3
  rw [min_eq_left (abs_nonneg c)]
  exact min_eq_right (abs_nonneg a)

theorem min3_abs_right_zero (a b : ℚ) : min3 |a| |b| 0 = 0 := by
  unfold min3
  rw [min_eq_right (abs_nonneg b)]
  exact min_eq_right (abs_nonneg a)

theorem minmod_core_neg (a b c : ℚ) :
    0.25 * |sign (-a) + sign (-b)| * (sign (-a) + sign (-c)) * min3 |(-a)| |(-b)| |(-c)| =
      -(0.25 * |sign a + sign b| * (sign a + sign c) * min3 |a| |b| |c|) := by
  by_cases ha : a = 0
  · subst ha
    simp [min3_abs_left_zero]
  · by_cases hb : b = 0
    · subst hb
      simp [abs_neg, min3_abs_mid_zero]
    · by_cases hc : c = 0
      · subst hc
        simp [abs_neg, min3_abs_right_zero]
      · rw [sign_neg_of_ne ha, sign_neg_of_ne hb, sign_neg_of_ne hc,
            abs_neg a, abs_neg b, abs_neg c,
            show -sign a + -sign b = -(sign a + sign b) from by ring, abs_neg]
        ring

/-- C7: the limiter formula of `plm_minmod` evaluates to zero whenever the
three samples are equal: `plm_minmod(y, y, y, theta) = 0` for all `y` and
`theta`, because `a = b = c = 0` makes `minabs(a, b, c) = 0`. -/
theorem minmod_vanishes_on_equal_samples (y theta : ℚ) :
    plm_minmod y y y theta = 0 := by
  simp [plm_minmod, min3]

/-- C8: `plm_minmod` is antisymmetric under negation of all three input
samples: `plm_minmod(-yl, -yc, -yr, theta) = -plm_minmod(yl, yc, yr, theta)`.
When any of `a`, `b`, `c` vanishes both sides are zero through
`minabs`; otherwise all the signs flip. -/
theorem minmod_antisymmetric (yl yc yr theta : ℚ) :
    plm_minmod (-yl) (-yc) (-yr) theta = - plm_minmod yl yc yr theta := by
  have e1 : (-yc - -yl) * theta = -((yc - yl) * theta) := by ring
  have e2 : (-yr - -yl) * 0.5 = -((yr - yl) * 0.5) := by ring
  have e3 : (-yr - -yc) * theta = -((yr - yc) * theta) := by ring
  simp only [plm_minmod]
  rw [e1, e2, e3]
  exact minmod_core_neg _ _ _

/-- C3: `cell_centers_1d(ni)` does not return `ni` cell centers `(i + 1/2)/ni`.
The code takes `linspace(0, 1, ni)` (`ni` points, hence `ni - 1` intervals)
and returns the `ni - 1` midpoints with spacing `1/(ni - 1)`.  At the failing
input `ni = 2` the code returns the single value `[1/2]` whereas the claim
asks for the two values `[1/4, 3/4]`. -/
theorem cell_centers_1d_returns_interval_midpoints :
    (∀ ni, (cell_centers_1d ni).length = ni - 1) ∧
      cell_centers_1d 2 = [1/2] ∧ cell_centers_1d 2 ≠ [1/4, 3/4] := by
  have hxv : linspace 0 1 2 = [0, 1] := by
    norm_num [linspace, List.range_succ]
  have hcc : cell_centers_1d 2 = [1/2] := by
    simp only [cell_centers_1d, hxv, List.drop, List.zipWith]
    norm_num
  refine ⟨fun ni => ?_, hcc, ?_⟩
  · have h1 : (linspace 0 1 ni).length = ni := by
      unfold linspace
      rw [List.length_map, List.length_range]
    show (List.zipWith _ ((linspace 0 1 ni).drop 1) (linspace 0 1 ni)).length = ni - 1
    rw [List.length_zipWith, List.length_drop, h1]
    omega
  · rw [hcc]
    intro hcontra
    simp at hcontra

/-- C6: after `Patch.advance_rk(rk_param, dt)` the patch time equals
`t0 * rk_param + (t0 + dt) * (1 - rk_param)` for the start-of-step time `t0`,
the `conserved1`/`conserved2` buffers are swapped (the stage result, written
into `conserved2`, becomes `conserved1` and the old `conserved1` becomes the
scratch), and the scale factor used by the kernels is
`a(t) = a0 + adot * t` evaluated at the patch's current time. -/
theorem srhd_advance_rk_spec {β : Type}
    (c2pK : ℕ → List ℚ → β → ℚ → ℕ → β)
    (advK : ℕ → List ℚ → β → β → β → ℚ → ℚ → ℚ → ℚ → ℚ → ℕ → β)
    (p : SrhdPatch β) (rk_param dt : ℚ) :
    (SrhdPatch.advance_rk c2pK advK p rk_param dt).time =
        p.time0 * rk_param + (p.time0 + dt) * (1 - rk_param) ∧
      (SrhdPatch.advance_rk c2pK advK p rk_param dt).conserved2 = p.conserved1 ∧
      (SrhdPatch.advance_rk c2pK advK p rk_param dt).conserved1 =
        advK p.num_zones p.faces p.conserved0
          (c2pK p.num_zones p.faces p.conserved1
            (p.scale_factor_initial + p.scale_factor_derivative * p.time)
            p.coordinates)
          p.conserved1 p.scale_factor_initial p.scale_factor_derivative p.time
          rk_param dt p.coordinates ∧
      SrhdPatch.scale_factor p =
        p.scale_factor_initial + p.scale_factor_derivative * p.time :=
  ⟨rfl, rfl, rfl, rfl⟩

theorem fpf_rk_zero_blend (E : EulerOps) (ni : ℕ) (p f urk1 urk2 : ℕ → Vec3)
    (dt dx rk2 : ℚ) :
    fpfUpdate E true ni p f urk1 dt dx 0 = fpfUpdate E false ni p f urk2 dt dx rk2 := by
  funext i
  unfold fpfUpdate
  by_cases h : 2 ≤ i ∧ i + 2 < ni
  · rw [if_pos h, if_pos h]
    refine congrArg E.c2p (funext fun q => ?_)
    show (E.p2c (p i) q - (f (i + 1) q - f i q) * dt / dx) * (1 - 0) +
        0 * urk1 i q = E.p2c (p i) q - (f (i + 1) q - f i q) * dt / dx
    ring
  · rw [if_neg h, if_neg h]

theorem fpz_rk_zero_blend (E : EulerOps) (plm : Bool) (theta : ℚ) (ni : ℕ)
    (prd pwr urk1 urk2 : ℕ → Vec3) (dt dx rk2 : ℚ) :
    fpzUpdate E true plm theta ni prd pwr urk1 dt dx 0 =
      fpzUpdate E false plm theta ni prd pwr urk2 dt dx rk2 := by
  funext i
  unfold fpzUpdate
  by_cases h : 2 ≤ i ∧ i + 2 < ni
  · rw [if_pos h, if_pos h]
    refine congrArg E.c2p (funext fun q => ?_)
    show zoneFluxDiv E plm theta dt dx prd i q * (1 - 0) + 0 * urk1 i q =
        zoneFluxDiv E plm theta dt dx prd i q
    ring
  · rw [if_neg h, if_neg h]

/-- C2: for every 1d primitive array and every valid fluxing and
reconstruction choice, `update_prim` with `time_integration = "fwd"` and with
`"rk1"` produce the same result: `rk1` runs a single stage with blend
coefficient `0`, and blending with coefficient `0` is the identity, so the
extra `U_rk` freeze of the `rk1` path is unobservable. -/
theorem fwd_equals_rk1 (E : EulerOps) (theta dt dx : ℚ) (p f0 urk0 : ℕ → Vec3)
    (ni : ℕ) :
    (updatePrim E "per_face" "pcm" "fwd" theta dt dx p ni f0 urk0 =
        updatePrim E "per_face" "pcm" "rk1" theta dt dx p ni f0 urk0) ∧
      (updatePrim E "per_face" "plm" "fwd" theta dt dx p ni f0 urk0 =
        updatePrim E "per_face" "plm" "rk1" theta dt dx p ni f0 urk0) ∧
      (updatePrim E "per_zone" "pcm" "fwd" theta dt dx p ni f0 urk0 =
        updatePrim E "per_zone" "pcm" "rk1" theta dt dx p ni f0 urk0) ∧
      (updatePrim E "per_zone" "plm" "fwd" theta dt dx p ni f0 urk0 =
        updatePrim E "per_zone" "plm" "rk1" theta dt dx p ni f0 urk0) := by
  refine ⟨?_, ?_, ?_, ?_⟩
  · show Except.ok (fpfUpdate E false ni p (computeGodunovFluxes E false theta ni p f0)
        urk0 dt dx 0) =
      Except.ok (fpfUpdate E true ni p (computeGodunovFluxes E false theta ni p f0)
        (primToConsArray E ni p urk0) dt dx 0)
    exact congrArg Except.ok (fpf_rk_zero_blend E ni p _ _ urk0 dt dx 0).symm
  · show Except.ok (fpfUpdate E false ni p (computeGodunovFluxes E true theta ni p f0)
        urk0 dt dx 0) =
      Except.ok (fpfUpdate E true ni p (computeGodunovFluxes E true theta ni p f0)
        (primToConsArray E ni p urk0) dt dx 0)
    exact congrArg Except.ok (fpf_rk_zero_blend E ni p _ _ urk0 dt dx 0).symm
  · show Except.ok (fpzUpdate E false false theta ni p p urk0 dt dx 0) =
      Except.ok (fpzUpdate E true false theta ni p p
        (primToConsArray E ni p urk0) dt dx 0)
    exact congrArg Except.ok (fpz_rk_zero_blend E false theta ni p p _ urk0 dt dx 0).symm
  · show Except.ok (fpzUpdate E false true theta ni p p urk0 dt dx 0) =
      Except.ok (fpzUpdate E true true theta ni p p
        (primToConsArray E ni p urk0) dt dx 0)
    exact congrArg Except.ok (fpz_rk_zero_blend E true theta ni p p _ urk0 dt dx 0).symm

theorem fpz_stage_matches_spec (E : EulerOps) (plm : Bool) (theta : ℚ)
    (ni : ℕ) (p urk0 prd pwr : ℕ → Vec3) (dt dx rk : ℚ) :
    fpzUpdate E true plm theta ni prd pwr (primToConsArray E ni p urk0) dt dx rk =
      specZoneStage E plm theta ni (fun i => E.p2c (p i)) prd pwr dt dx rk := by
  funext i
  unfold fpzUpdate specZoneStage
  by_cases h : 2 ≤ i ∧ i + 2 < ni
  · rw [if_pos h, if_pos h]
    refine congrArg E.c2p (funext fun q => ?_)
    have hurk : primToConsArray E ni p urk0 i = E.p2c (p i) := by
      unfold primToConsArray
      rw [if_pos ⟨by omega, by omega⟩]
    show zoneFluxDiv E plm theta dt dx prd i q * (1 - rk) +
        rk * primToConsArray E ni p urk0 i q =
      (1 - rk) * zoneFluxDiv E plm theta dt dx prd i q + rk * E.p2c (p i) q
    rw [hurk]
    ring
  · rw [if_neg h, if_neg h]

theorem fpz_run_matches_spec (E : EulerOps) (plm : Bool) (theta : ℚ)
    (ni : ℕ) (p urk0 : ℕ → Vec3) (dt dx : ℚ) (rks : List ℚ) :
    ∀ prd pwr : ℕ → Vec3,
      rks.foldl (fun bufs rk =>
          (fpzUpdate E true plm theta ni bufs.1 bufs.2
            (primToConsArray E ni p urk0) dt dx rk, bufs.1)) (prd, pwr) =
        rks.foldl (fun bufs a =>
          (specZoneStage E plm theta ni (fun i => E.p2c (p i)) bufs.1 bufs.2 dt dx a,
           bufs.1)) (prd, pwr) := by
  induction rks with
  | nil => intro prd pwr; rfl
  | cons r rs ih =>
    intro prd pwr
    simp only [List.foldl_cons]
    rw [fpz_stage_matches_spec E plm theta ni p urk0 prd pwr dt dx r]
    exact ih _ _

theorem fpf_stage_matches_spec (E : EulerOps) (plm : Bool) (theta : ℚ)
    (ni : ℕ) (p urk0 pcur f : ℕ → Vec3) (dt dx rk : ℚ) :
    (fpfUpdate E true ni pcur (computeGodunovFluxes E plm theta ni pcur f)
       (primToConsArray E ni p urk0) dt dx rk,
     computeGodunovFluxes E plm theta ni pcur f) =
      specFaceStage E plm theta ni (fun i => E.p2c (p i)) pcur f dt dx rk := by
  unfold specFaceStage
  refine congrArg₂ Prod.mk ?_ rfl
  funext i
  unfold fpfUpdate
  by_cases h : 2 ≤ i ∧ i + 2 < ni
  · rw [if_pos h, if_pos h]
    refine congrArg E.c2p (funext fun q => ?_)
    have hurk : primToConsArray E ni p urk0 i = E.p2c (p i) := by
      unfold primToConsArray
      rw [if_pos ⟨by omega, by omega⟩]
    show (E.p2c (pcur i) q -
          (computeGodunovFluxes E plm theta ni pcur f (i + 1) q -
            computeGodunovFluxes E plm theta ni pcur f i q) * dt / dx) * (1 - rk) +
        rk * primToConsArray E ni p urk0 i q =
      (1 - rk) * (E.p2c (pcur i) q -
          (computeGodunovFluxes E plm theta ni pcur f (i + 1) q -
            computeGodunovFluxes E plm theta ni pcur f i q) * dt / dx) +
        rk * E.p2c (p i) q
    rw [hurk]
    ring
  · rw [if_neg h, if_neg h]

theorem fpf_run_matches_spec (E : EulerOps) (plm : Bool) (theta : ℚ)
    (ni : ℕ) (p urk0 : ℕ → Vec3) (dt dx : ℚ) (rks : List ℚ) :
    ∀ pcur f : ℕ → Vec3,
      rks.foldl (fun pf rk =>
          (fpfUpdate E true ni pf.1 (computeGodunovFluxes E plm theta ni pf.1 pf.2)
            (primToConsArray E ni p urk0) dt dx rk,
           computeGodunovFluxes E plm theta ni pf.1 pf.2)) (pcur, f) =
        rks.foldl (fun pf a =>
          specFaceStage E plm theta ni (fun i => E.p2c (p i)) pf.1 pf.2 dt dx a)
          (pcur, f) := by
  induction rks with
  | nil => intro pcur f; rfl
  | cons r rs ih =>
    intro pcur f
    simp only [List.foldl_cons]
    rw [fpf_stage_matches_spec E plm theta ni p urk0 pcur f dt dx r]
    exact ih _ _

/-- C1: `update_prim` with `time_integration = "rk2"` runs exactly the stage
coefficients `[0, 1/2]` and with `"rk3"` exactly `[0, 3/4, 1/3]`; before the
first stage it freezes `U_rk = prim_to_cons(P)`, and each stage, after the
flux-divergence update of the cell's conserved state, blends
`u_c <- (1 - a) * u_c + a * U_rk[c]` where `a` is the stage coefficient.
Stated for both fluxings and both reconstructions as agreement with the
spec-side drivers `specZoneRun` and `specFaceRun`. -/
theorem rk_stage_coefficients_and_blend (E : EulerOps) (theta dt dx : ℚ)
    (p f0 urk0 : ℕ → Vec3) (ni : ℕ) :
    ((updatePrim E "per_zone" "pcm" "rk2" theta dt dx p ni f0 urk0 =
        Except.ok (specZoneRun E false theta ni [0, 1/2] p dt dx)) ∧
      (updatePrim E "per_zone" "plm" "rk2" theta dt dx p ni f0 urk0 =
        Except.ok (specZoneRun E true theta ni [0, 1/2] p dt dx)) ∧
      (updatePrim E "per_zone" "pcm" "rk3" theta dt dx p ni f0 urk0 =
        Except.ok (specZoneRun E false theta ni [0, 3/4, 1/3] p dt dx)) ∧
      (updatePrim E "per_zone" "plm" "rk3" theta dt dx p ni f0 urk0 =
        Except.ok (specZoneRun E true theta ni [0, 3/4, 1/3] p dt dx))) ∧
    ((updatePrim E "per_face" "pcm" "rk2" theta dt dx p ni f0 urk0 =
        Except.ok (specFaceRun E false theta ni [0, 1/2] p f0 dt dx)) ∧
      (updatePrim E "per_face" "plm" "rk2" theta dt dx p ni f0 urk0 =
        Except.ok (specFaceRun E true theta ni [0, 1/2] p f0 dt dx)) ∧
      (updatePrim E "per_face" "pcm" "rk3" theta dt dx p ni f0 urk0 =
        Except.ok (specFaceRun E false theta ni [0, 3/4, 1/3] p f0 dt dx)) ∧
      (updatePrim E "per_face" "plm" "rk3" theta dt dx p ni f0 urk0 =
        Except.ok (specFaceRun E true theta ni [0, 3/4, 1/3] p f0 dt dx))) := by
  refine ⟨⟨?_, ?_, ?_, ?_⟩, ?_, ?_, ?_, ?_⟩
  · show Except.ok ((([0, 1/2] : List ℚ).foldl (fun bufs rk =>
        (fpzUpdate E true false theta ni bufs.1 bufs.2
          (primToConsArray E ni p urk0) dt dx rk, bufs.1)) (p, p)).1) = _
    rw [fpz_run_matches_spec E false theta ni p urk0 dt dx [0, 1/2] p p]
    rfl
  · show Except.ok ((([0, 1/2] : List ℚ).foldl (fun bufs rk =>
        (fpzUpdate E true true theta ni bufs.1 bufs.2
          (primToConsArray E ni p urk0) dt dx rk, bufs.1)) (p, p)).1) = _
    rw [fpz_run_matches_spec E true theta ni p urk0 dt dx [0, 1/2] p p]
    rfl
  · show Except.ok ((([0, 3/4, 1/3] : List ℚ).foldl (fun bufs rk =>
        (fpzUpdate E true false theta ni bufs.1 bufs.2
          (primToConsArray E ni p urk0) dt dx rk, bufs.1)) (p, p)).1) = _
    rw [fpz_run_matches_spec E false theta ni p urk0 dt dx [0, 3/4, 1/3] p p]
    rfl
  · show Except.ok ((([0, 3/4, 1/3] : List ℚ).foldl (fun bufs rk =>
        (fpzUpdate E true true theta ni bufs.1 bufs.2
          (primToConsArray E ni p urk0) dt dx rk, bufs.1)) (p, p)).1) = _
    rw [fpz_run_matches_spec E true theta ni p urk0 dt dx [0, 3/4, 1/3] p p]
    rfl
  · show Except.ok ((([0, 1/2] : List ℚ).foldl (fun pf rk =>
        (fpfUpdate E true ni pf.1 (computeGodunovFluxes E false theta ni pf.1 pf.2)
          (primToConsArray E ni p urk0) dt dx rk,
         computeGodunovFluxes E false theta ni pf.1 pf.2)) (p, f0)).1) = _
    rw [fpf_run_matches_spec E false theta ni p urk0 dt dx [0, 1/2] p f0]
    rfl
  · show Except.ok ((([0, 1/2] : List ℚ).foldl (fun pf rk =>
        (fpfUpdate E true ni pf.1 (computeGodunovFluxes E true theta ni pf.1 pf.2)
          (primToConsArray E ni p urk0) dt dx rk,
         computeGodunovFluxes E true theta ni pf.1 pf.2)) (p, f0)).1) = _
    rw [fpf_run_matches_spec E true theta ni p urk0 dt dx [0, 1/2] p f0]
    rfl
  · show Except.ok ((([0, 3/4, 1/3] : List ℚ).foldl (fun pf rk =>
        (fpfUpdate E true ni pf.1 (computeGodunovFluxes E false theta ni pf.1 pf.2)
          (primToConsArray E ni p urk0) dt dx rk,
         computeGodunovFluxes E false theta ni pf.1 pf.2)) (p, f0)).1) = _
    rw [fpf_run_matches_spec E false theta ni p urk0 dt dx [0, 3/4, 1/3] p f0]
    rfl
  · show Except.ok ((([0, 3/4, 1/3] : List ℚ).foldl (fun pf rk =>
        (fpfUpdate E true ni pf.1 (computeGodunovFluxes E true theta ni pf.1 pf.2)
          (primToConsArray E ni p urk0) dt dx rk,
         computeGodunovFluxes E true theta ni pf.1 pf.2)) (p, f0)).1) = _
    rw [fpf_run_matches_spec E true theta ni p urk0 dt dx [0, 3/4, 1/3] p f0]
    rfl

/-- C4: in the per-face 1d solver, `compute_godunov_fluxes` writes the HLLE
flux of the reconstructed face states into `F[i+1]` exactly for `i` in
`[1, ni-2)` (slot `j` is untouched whenever `j` is not such an `i + 1`), and
`update_prim` updates in place exactly the interior cells `m` in `[2, ni-2)`
by converting `p_c` to conserved, applying `u_c -= (F[i+1] - F[i])*dt/dx`,
optionally blending with `U_rk`, and converting back into the same slot
(cell `k` outside the interior keeps its input value). -/
theorem fpf_kernel_ranges (E : EulerOps) (plm rkOn : Bool)
    (theta dt dx rk : ℚ) (p f0 urk : ℕ → Vec3) (ni i m j k : ℕ)
    (hi1 : 1 ≤ i) (hi2 : i + 2 < ni)
    (hm1 : 2 ≤ m) (hm2 : m + 2 < ni)
    (hj : ¬ (2 ≤ j ∧ j + 1 < ni))
    (hk : ¬ (2 ≤ k ∧ k + 2 < ni)) :
    computeGodunovFluxes E plm theta ni p f0 (i + 1) = faceFlux E plm theta p i ∧
      computeGodunovFluxes E plm theta ni p f0 j = f0 j ∧
      fpfUpdate E rkOn ni p f0 urk dt dx rk m =
        interiorUpdate E rkOn p f0 urk dt dx rk m ∧
      fpfUpdate E rkOn ni p f0 urk dt dx rk k = p k := by
  refine ⟨?_, ?_, ?_, ?_⟩
  · unfold computeGodunovFluxes
    rw [if_pos ⟨by omega, by omega⟩]
    rw [show i + 1 - 1 = i from rfl]
    rfl
  · unfold computeGodunovFluxes
    rw [if_neg hj]
  · unfold fpfUpdate interiorUpdate
    rw [if_pos ⟨hm1, hm2⟩]
    refine congrArg E.c2p (funext fun q => ?_)
    cases rkOn
    · rfl
    · show (E.p2c (p m) q - (f0 (m + 1) q - f0 m q) * dt / dx) * (1 - rk) +
          rk * urk m q =
        (1 - rk) * (E.p2c (p m) q - (f0 (m + 1) q - f0 m q) * dt / dx) +
          rk * urk m q
      ring
  · unfold fpfUpdate
    rw [if_neg hk]

/-- Closed instance of `fpf_kernel_ranges` at `ni = 8` with concrete device
functions and arrays, discharging the range hypotheses at
`i = 1`, `m = 2`, `j = 0`, `k = 7`. -/
theorem fpf_kernel_ranges_witness :
    computeGodunovFluxes opsW true 1 8 pW pW (1 + 1) = faceFlux opsW true 1 pW 1 ∧
      computeGodunovFluxes opsW true 1 8 pW pW 0 = pW 0 ∧
      fpfUpdate opsW true 8 pW pW pW 1 1 (1/2) 2 =
        interiorUpdate opsW true pW pW pW 1 1 (1/2) 2 ∧
      fpfUpdate opsW true 8 pW pW pW 1 1 (1/2) 7 = pW 7 :=
  fpf_kernel_ranges opsW true true 1 1 1 (1/2) pW pW pW 8 1 2 0 7
    (by decide) (by decide) (by decide) (by decide) (by decide) (by decide)

theorem fpzUpdate_guard {E : EulerOps} {rkOn plm : Bool} {theta : ℚ} {ni : ℕ}
    {prd pwr urk : ℕ → Vec3} {dt dx rk : ℚ} {i : ℕ}
    (hi : ¬ (2 ≤ i ∧ i + 2 < ni)) :
    fpzUpdate E rkOn plm theta ni prd pwr urk dt dx rk i = pwr i := by
  unfold fpzUpdate
  rw [if_neg hi]

theorem zone_fold_guard {E : EulerOps} {rkOn plm : Bool} {theta : ℚ} {ni : ℕ}
    {urk : ℕ → Vec3} {dt dx : ℚ} {p : ℕ → Vec3} {i : ℕ}
    (hi : ¬ (2 ≤ i ∧ i + 2 < ni)) :
    ∀ (rks : List ℚ) (prd pwr : ℕ → Vec3), prd i = p i → pwr i = p i →
      ((rks.foldl (fun bufs rk =>
          (fpzUpdate E rkOn plm theta ni bufs.1 bufs.2 urk dt dx rk, bufs.1))
          (prd, pwr)).1 i = p i ∧
        (rks.foldl (fun bufs rk =>
          (fpzUpdate E rkOn plm theta ni bufs.1 bufs.2 urk dt dx rk, bufs.1))
          (prd, pwr)).2 i = p i) := by
  intro rks
  induction rks with
  | nil => intro prd pwr h1 h2; exact ⟨h1, h2⟩
  | cons r rs ih =>
    intro prd pwr h1 h2
    simp only [List.foldl_cons]
    exact ih _ _ ((fpzUpdate_guard hi).trans h2) h1

/-- C10: for every 1d primitive array and every valid configuration of the
per-zone fluxing path, the array returned by `update_prim` agrees with the
input at every guard index `i < 2` or `i >= ni - 2`: each stage kernel writes
only the interior range of its output buffer and both alternating buffers
start as (copies of) the input, so guard cells are never modified. -/
theorem perzone_guards_preserved (E : EulerOps) (rec ti : String)
    (theta dt dx : ℚ) (p f0 urk0 : ℕ → Vec3) (ni i : ℕ)
    (hrec : rec = "pcm" ∨ rec = "plm")
    (hti : ti = "fwd" ∨ ti = "rk1" ∨ ti = "rk2" ∨ ti = "rk3")
    (hi : i < 2 ∨ ni ≤ i + 2) :
    ∃ g, updatePrim E "per_zone" rec ti theta dt dx p ni f0 urk0 = Except.ok g ∧
      g i = p i := by
  have hi2 : ¬ (2 ≤ i ∧ i + 2 < ni) := by omega
  rcases hrec with h | h <;> subst h <;>
    rcases hti with h | h | h | h <;> subst h <;>
    refine ⟨_, rfl, ?_⟩ <;>
    first
      | exact fpzUpdate_guard hi2
      | exact (zone_fold_guard hi2 _ p p rfl rfl).1

/-- Closed instance of `perzone_guards_preserved` with concrete device
functions at `ni = 8`, guard index `i = 0`, configuration `pcm`/`rk2`. -/
theorem perzone_guards_preserved_witness :
    ∃ g, updatePrim opsW "per_zone" "pcm" "rk2" 1 1 1 pW 8 pW pW = Except.ok g ∧
      g 0 = pW 0 :=
  perzone_guards_preserved opsW "pcm" "rk2" 1 1 1 pW pW pW 8 0
    (Or.inl rfl) (Or.inr (Or.inr (Or.inl rfl))) (Or.inl (by decide))

/-- C9: `update_prim2d` raises an error for every `fluxing` value other than
`per_zone` (regardless of the other options), and both `update_prim` and
`update_prim2d` raise the `ValueError` for every `time_integration` outside
`fwd`/`rk1`/`rk2`/`rk3` (regardless of `fluxing` and `reconstruction`).  In
the embedding an error result is produced without running any kernel, so the
input primitive array is untouched. -/
theorem config_validation_errors (E2 : EulerOps2) (E : EulerOps)
    (badFluxing badTi tiAny recAny fluxingAny : String) (theta dt dx : ℚ)
    (p2 urk20 : Grid2) (p f0 urk0 : ℕ → Vec3) (ni nj n1 : ℕ)
    (hf : badFluxing ≠ "per_zone")
    (ht1 : badTi ≠ "fwd") (ht2 : badTi ≠ "rk1")
    (ht3 : badTi ≠ "rk2") (ht4 : badTi ≠ "rk3") :
    (∃ e, updatePrim2d E2 badFluxing recAny tiAny theta dt dx p2 ni nj urk20 =
        Except.error e) ∧
      (updatePrim2d E2 fluxingAny recAny badTi theta dt dx p2 ni nj urk20 =
        Except.error ("time_integration must be [fwd|r1k|rk2|rk3], got " ++ badTi)) ∧
      (updatePrim E fluxingAny recAny badTi theta dt dx p n1 f0 urk0 =
        Except.error ("time_integration must be [fwd|r1k|rk2|rk3], got " ++ badTi)) := by
  have hrks : rksOf badTi =
      Except.error ("time_integration must be [fwd|r1k|rk2|rk3], got " ++ badTi) := by
    unfold rksOf
    rw [if_neg ht1, if_neg ht2, if_neg ht3, if_neg ht4]
  refine ⟨?_, ?_, ?_⟩
  · rcases hrk : rksOf tiAny with e | rksOpt
    · exact ⟨e, by simp only [updatePrim2d, hrk]⟩
    · refine ⟨"only fluxing=per_zone supported in 2d", ?_⟩
      simp only [updatePrim2d, hrk]
      rw [if_neg hf]
  · simp only [updatePrim2d, hrks]
  · simp only [updatePrim, hrks]

/-- Closed instance of `config_validation_errors` at the failing inputs
`fluxing = "per_face"` (2d) and `time_integration = "rk4"`. -/
theorem config_validation_errors_witness :
    (∃ e, updatePrim2d opsW2 "per_face" "pcm" "fwd" 1 1 1 pW2 8 8 pW2 =
        Except.error e) ∧
      (updatePrim2d opsW2 "per_zone" "pcm" "rk4" 1 1 1 pW2 8 8 pW2 =
        Except.error ("time_integration must be [fwd|r1k|rk2|rk3], got " ++ "rk4")) ∧
      (updatePrim opsW "per_zone" "pcm" "rk4" 1 1 1 pW 8 pW pW =
        Except.error ("time_integration must be [fwd|r1k|rk2|rk3], got " ++ "rk4")) :=
  config_validation_errors opsW2 opsW "per_face" "rk4" "fwd" "pcm" "per_zone"
    1 1 1 pW2 pW2 pW pW pW 8 8 8
    (by decide) (by decide) (by decide) (by decide) (by decide)

/-- C5: `Solver.set_bc` with `NG = 2` guard cells fills, under `periodic`,
the left and right guard regions from the neighboring patches' interior
edges (the neighbors themselves being selected with wrap-around indices
`(i + N - 1) % N` and `(i + N + 1) % N` across the patch ring); under
`outflow` the first patch's left guard and the last patch's right guard are
filled from that patch's own interior edge (zero gradient) while all other
guards are copied from neighbors; interior cells are untouched; and any
other `boundary_condition` value raises an error. -/
theorem srhd_boundary_exchange {β : Type} (numPatches : ℕ) (al a0 ar : ℕ → β)
    (nl n0 index : ℕ) (bc : String)
    (hn0 : 6 ≤ n0) (hnl : 6 ≤ nl) (hp : 1 ≤ numPatches)
    (hbc1 : bc ≠ "periodic") (hbc2 : bc ≠ "outflow") :
    SetBCProp numPatches al a0 ar nl n0 index bc ∧
      leftNeighbor numPatches 0 = numPatches - 1 ∧
      rightNeighbor numPatches (numPatches - 1) = 0 := by
  refine ⟨⟨?_, ?_, ?_⟩, ?_, ?_⟩
  · -- periodic branch of set_bc
    refine ⟨_, rfl, ?_, ?_, ?_, ?_, ?_⟩
    · have h1 : ¬ (n0 - 2 ≤ 0 ∧ 0 < n0) := by omega
      simp only [if_neg h1, if_pos (show (0:ℕ) < 2 by norm_num), Nat.add_zero]
    · have h1 : ¬ (n0 - 2 ≤ 1 ∧ 1 < n0) := by omega
      simp only [if_neg h1, if_pos (show (1:ℕ) < 2 by norm_num)]
      congr 1
      omega
    · have h1 : n0 - 2 ≤ n0 - 2 ∧ n0 - 2 < n0 := ⟨le_refl _, by omega⟩
      simp only [if_pos h1, Nat.sub_self, Nat.add_zero]
    · have h1 : n0 - 2 ≤ n0 - 1 ∧ n0 - 1 < n0 := ⟨by omega, by omega⟩
      simp only [if_pos h1]
      congr 1
      omega
    · intro i hil hir
      have h1 : ¬ (n0 - 2 ≤ i ∧ i < n0) := by omega
      have h2 : ¬ i < 2 := by omega
      simp only [if_neg h1, if_neg h2]
  · -- outflow branch of set_bc
    refine ⟨_, rfl, ?_, ?_, ?_, ?_, ?_⟩
    · have h1 : ¬ (n0 - 2 ≤ 0 ∧ 0 < n0) := by omega
      simp only [if_neg h1, if_pos (show (0:ℕ) < 2 by norm_num), Nat.add_zero]
    · have h1 : ¬ (n0 - 2 ≤ 1 ∧ 1 < n0) := by omega
      simp only [if_neg h1, if_pos (show (1:ℕ) < 2 by norm_num)]
      by_cases hidx : index = 0
      · simp only [if_pos hidx]
      · simp only [if_neg hidx]
        congr 1
        omega
    · have h1 : n0 - 2 ≤ n0 - 2 ∧ n0 - 2 < n0 := ⟨le_refl _, by omega⟩
      simp only [if_pos h1, Nat.sub_self, Nat.add_zero]
      by_cases hidx : index = numPatches - 1
      · have h2 : ¬ n0 - 4 < 2 := by omega
        simp only [if_pos hidx, if_neg h2]
      · simp only [if_neg hidx]
    · have h1 : n0 - 2 ≤ n0 - 1 ∧ n0 - 1 < n0 := ⟨by omega, by omega⟩
      simp only [if_pos h1]
      by_cases hidx : index = numPatches - 1
      · have h2 : ¬ n0 - 4 + (n0 - 1 - (n0 - 2)) < 2 := by omega
        simp only [if_pos hidx, if_neg h2]
        congr 1
        omega
      · simp only [if_neg hidx]
        congr 1
        omega
    · intro i hil hir
      have h1 : ¬ (n0 - 2 ≤ i ∧ i < n0) := by omega
      have h2 : ¬ i < 2 := by omega
      simp only [if_neg h1, if_neg h2]
  · -- invalid boundary condition raises
    refine ⟨"boundary condition must be periodic | outflow", ?_⟩
    unfold setBC
    rw [if_neg hbc1, if_neg hbc2]
  · -- wrap-around of the left neighbor of patch 0
    unfold leftNeighbor
    rw [Nat.zero_add]
    exact Nat.mod_eq_of_lt (by omega)
  · -- wrap-around of the right neighbor of the last patch
    unfold rightNeighbor
    rw [show numPatches - 1 + numPatches + 1 = 2 * numPatches from by omega]
    exact Nat.mul_mod_left 2 numPatches

/-- Closed instance of `srhd_boundary_exchange` with three patches of eight
cells, middle patch index, and the invalid boundary condition string
`"reflecting"`. -/
theorem srhd_boundary_exchange_witness :
    SetBCProp 3 (fun i => i) (fun i => 100 + i) (fun i => 200 + i) 8 8 1
        "reflecting" ∧
      leftNeighbor 3 0 = 2 ∧ rightNeighbor 3 2 = 0 :=
  srhd_boundary_exchange 3 (fun i => i) (fun i => 100 + i) (fun i => 200 + i)
    8 8 1 "reflecting" (by decide) (by decide) (by decide) (by decide) (by decide)

end Sailfish
